import Mathlib

/-!
Verification of the sensu-microsoft-teams-handler repository (main.go).

The handler reads a Sensu event from stdin, builds a Microsoft Teams
message card and POSTs it to a configured webhook.  Go strings are byte
strings, and the link construction goes through Go's net/url package,
which operates on bytes; we therefore model Go strings as `List Nat`
(each entry a byte) and model the relevant parts of net/url
(`Parse`, `ResolveReference`, `URL.String` and their helpers) at the
byte level, following the Go standard library sources contemporary with
the repository.  Lean `String` literals are converted to byte lists via
UTF-8 (`goStr`).
-/

/-- Go strings are byte sequences; we model them as lists of bytes. -/
abbrev Bytes := List Nat

/-- UTF-8 encoding of a single character, as Go produces for string literals. -/
def charBytes (c : Char) : Bytes :=
  let n := c.toNat
  if n < 0x80 then [n]
  else if n < 0x800 then [0xC0 + n / 64, 0x80 + n % 64]
  else if n < 0x10000 then [0xE0 + n / 4096, 0x80 + (n / 64) % 64, 0x80 + n % 64]
  else [0xF0 + n / 262144, 0x80 + (n / 4096) % 64, 0x80 + (n / 64) % 64, 0x80 + n % 64]

/-- A Lean string literal viewed as a Go string (UTF-8 bytes). -/
def goStr (s : String) : Bytes := (s.data.map charBytes).flatten

/-- `startsWith s p`: `p` is a leading run of `s` (Go `strings.HasPrefix`). -/
def startsWith : Bytes → Bytes → Bool
  | _, [] => true
  | [], _ :: _ => false
  | c :: s, p :: ps => c = p && startsWith s ps

/-- Go `strings.HasSuffix`. -/
def endsWith (s p : Bytes) : Bool := startsWith s.reverse p.reverse

/-- Go `strings.IndexByte s c >= 0`. -/
def bcontains (s : Bytes) (c : Nat) : Bool := s.any (· = c)

/-- Go net/url's internal `split(s, sep, cutc)`: split around the first
occurrence of `sep`; `cutc` drops the separator from the second half. -/
def splitOnce : Bytes → Nat → Bool → Bytes × Bytes
  | [], _, _ => ([], [])
  | c :: rest, sep, cutc =>
    if c = sep then ([], if cutc then rest else c :: rest)
    else
      let p := splitOnce rest sep cutc
      (c :: p.1, p.2)

/-- Go `strings.Split s sep` for a one-byte separator. -/
def splitAll : Bytes → Nat → List Bytes
  | [], _ => [[]]
  | c :: rest, sep =>
    if c = sep then [] :: splitAll rest sep
    else
      match splitAll rest sep with
      | [] => [[c]]
      | s :: ss => (c :: s) :: ss

/-- Go `strings.IndexByte`. -/
def firstIndexOf : Bytes → Nat → Option Nat
  | [], _ => none
  | c :: rest, t =>
    if c = t then some 0
    else (firstIndexOf rest t).map (· + 1)

/-- Go `strings.LastIndex` for a one-byte separator. -/
def lastIndexOf : Bytes → Nat → Option Nat
  | [], _ => none
  | c :: rest, t =>
    match lastIndexOf rest t with
    | some i => some (i + 1)
    | none => if c = t then some 0 else none

/-- Index of the first occurrence of `"%25"` (Go `strings.Index host "%25"`). -/
def firstIndexOf25 : Bytes → Option Nat
  | [] => none
  | c :: rest =>
    if startsWith (c :: rest) [37, 50, 53] then some 0
    else (firstIndexOf25 rest).map (· + 1)

/-- ASCII lower-casing, as `strings.ToLower` behaves on scheme names
(which `getScheme` restricts to ASCII). -/
def asciiToLower (s : Bytes) : Bytes :=
  s.map (fun c => if 65 ≤ c ∧ c ≤ 90 then c + 32 else c)

/-- Go net/url `stringContainsCTLByte`. -/
def containsCTLByte (s : Bytes) : Bool := s.any (fun b => b < 32 || b = 127)

/-- The encoding contexts of Go net/url. -/
inductive Encoding where
  | path | pathSegment | host | zone | userPassword | queryComponent | fragment
deriving DecidableEq

def isAlphaByte (c : Nat) : Bool :=
  (97 ≤ c && c ≤ 122) || (65 ≤ c && c ≤ 90)

def isDigitByte (c : Nat) : Bool := 48 ≤ c && c ≤ 57

def isHexByte (c : Nat) : Bool :=
  isDigitByte c || (97 ≤ c && c ≤ 102) || (65 ≤ c && c ≤ 70)

def unhex (c : Nat) : Nat :=
  if isDigitByte c then c - 48
  else if 97 ≤ c && c ≤ 102 then c - 97 + 10
  else if 65 ≤ c && c ≤ 70 then c - 65 + 10
  else 0

/-- Go net/url `shouldEscape`. -/
def shouldEscape (c : Nat) (mode : Encoding) : Bool :=
  if isAlphaByte c || isDigitByte c then false
  else if (mode = .host ∨ mode = .zone) &&
      (c = 33 || c = 36 || c = 38 || c = 39 || c = 40 || c = 41 || c = 42 ||
       c = 43 || c = 44 || c = 59 || c = 61 || c = 58 || c = 91 || c = 93 ||
       c = 60 || c = 62 || c = 34) then false
  else if c = 45 || c = 95 || c = 46 || c = 126 then false
  else if c = 36 || c = 38 || c = 43 || c = 44 || c = 47 || c = 58 || c = 59 ||
      c = 61 || c = 63 || c = 64 then
    match mode with
    | .path => c = 63
    | .pathSegment => c = 47 || c = 59 || c = 44 || c = 63
    | .userPassword => c = 64 || c = 47 || c = 63 || c = 58
    | .queryComponent => true
    | .fragment => false
    | .host => true
    | .zone => true
  else if mode = .fragment && (c = 33 || c = 40 || c = 41 || c = 42) then false
  else true

def upperHexDigit (n : Nat) : Nat :=
  if n < 10 then 48 + n else 65 + (n - 10)

/-- Go net/url `escape`: percent-encode every byte `shouldEscape` flags
(`' '` becomes `'+'` in query components). -/
def escape (s : Bytes) (mode : Encoding) : Bytes :=
  s.foldr
    (fun c acc =>
      if shouldEscape c mode then
        if c = 32 ∧ mode = .queryComponent then 43 :: acc
        else 37 :: upperHexDigit (c / 16) :: upperHexDigit (c % 16) :: acc
      else c :: acc) []

/-- Go net/url `unescape`; `none` models the error return. -/
def unescape : Bytes → Encoding → Option Bytes
  | [], _ => some []
  | c :: rest, mode =>
    if c = 37 then
      match rest with
      | a :: b :: rest2 =>
        if isHexByte a ∧ isHexByte b then
          let v := unhex a * 16 + unhex b
          if mode = .host ∧ unhex a < 8 ∧ v ≠ 37 then none
          else if mode = .zone ∧ v ≠ 37 ∧ v ≠ 32 ∧ shouldEscape v .host then none
          else
            match unescape rest2 mode with
            | some t => some (v :: t)
            | none => none
        else none
      | _ => none
    else if c = 43 then
      match unescape rest mode with
      | some t => some ((if mode = .queryComponent then 32 else c) :: t)
      | none => none
    else
      if (mode = .host ∨ mode = .zone) ∧ c < 128 ∧ shouldEscape c mode then none
      else
        match unescape rest mode with
        | some t => some (c :: t)
        | none => none

/-- Go net/url `validEncoded`. -/
def validEncoded : Bytes → Encoding → Bool
  | [], _ => true
  | c :: rest, mode =>
    if c = 33 || c = 36 || c = 38 || c = 39 || c = 40 || c = 41 || c = 42 ||
        c = 43 || c = 44 || c = 59 || c = 61 || c = 58 || c = 64 ||
        c = 91 || c = 93 || c = 37 then validEncoded rest mode
    else if shouldEscape c mode then false
    else validEncoded rest mode

/-- Go net/url `validOptionalPort`. -/
def validOptionalPort (port : Bytes) : Bool :=
  match port with
  | [] => true
  | c :: rest => c = 58 && rest.all isDigitByte

/-- Go net/url `validUserinfo`. -/
def validUserinfo (s : Bytes) : Bool :=
  s.all (fun c =>
    isAlphaByte c || isDigitByte c ||
    c = 45 || c = 46 || c = 95 || c = 58 || c = 126 || c = 33 || c = 36 ||
    c = 38 || c = 39 || c = 40 || c = 41 || c = 42 || c = 43 || c = 44 ||
    c = 59 || c = 61 || c = 37 || c = 64)

/-- Go net/url `Userinfo` (stored decoded, as `User`/`UserPassword` build it). -/
structure Userinfo where
  username : Bytes
  password : Bytes
  passwordSet : Bool
deriving DecidableEq, Repr

/-- Go net/url `URL`.  `opq` is the `Opaque` field. -/
structure URL where
  scheme : Bytes := []
  opq : Bytes := []
  user : Option Userinfo := none
  host : Bytes := []
  path : Bytes := []
  rawPath : Bytes := []
  forceQuery : Bool := false
  rawQuery : Bytes := []
  fragment : Bytes := []
deriving DecidableEq, Repr

/-- Go net/url `(*URL).setPath`. -/
def URL.setPath (u : URL) (p : Bytes) : Option URL :=
  match unescape p .path with
  | none => none
  | some path =>
    some { u with path := path, rawPath := if escape path .path = p then [] else p }

/-- `setPath` with the error ignored (as `ResolveReference` does): on
failure the URL is left unchanged. -/
def URL.setPathOrKeep (u : URL) (p : Bytes) : URL := (URL.setPath u p).getD u

/-- Go net/url `(*URL).EscapedPath`. -/
def URL.escapedPath (u : URL) : Bytes :=
  if u.rawPath ≠ [] ∧ validEncoded u.rawPath .path ∧ unescape u.rawPath .path = some u.path
  then u.rawPath
  else if u.path = [42] then [42]
  else escape u.path .path

/-- Go net/url `getScheme`, written with an accumulator; `none` is the
"missing protocol scheme" error, otherwise the pair (scheme, rest). -/
def getSchemeAux (orig acc : Bytes) : Bytes → Option (Bytes × Bytes)
  | [] => some ([], orig)
  | c :: rest =>
    if isAlphaByte c then getSchemeAux orig (acc ++ [c]) rest
    else if isDigitByte c || c = 43 || c = 45 || c = 46 then
      if acc = [] then some ([], orig)
      else getSchemeAux orig (acc ++ [c]) rest
    else if c = 58 then
      if acc = [] then none
      else some (acc, rest)
    else some ([], orig)

def getScheme (raw : Bytes) : Option (Bytes × Bytes) := getSchemeAux raw [] raw

/-- Go net/url `parseHost`; `none` models the error return. -/
def parseHost (host : Bytes) : Option Bytes :=
  if startsWith host [91] then
    match lastIndexOf host 93 with
    | none => none
    | some i =>
      let colonPort := host.drop (i + 1)
      if ¬ validOptionalPort colonPort then none
      else
        match firstIndexOf25 (host.take i) with
        | some zone =>
          match unescape (host.take zone) .host with
          | none => none
          | some host1 =>
            match unescape ((host.take i).drop zone) .zone with
            | none => none
            | some host2 =>
              match unescape (host.drop i) .host with
              | none => none
              | some host3 => some (host1 ++ host2 ++ host3)
        | none => unescape host .host
  else
    match lastIndexOf host 58 with
    | some i =>
      if ¬ validOptionalPort (host.drop i) then none
      else unescape host .host
    | none => unescape host .host

/-- Go net/url `parseAuthority`; returns (user, host). -/
def parseAuthority (authority : Bytes) : Option (Option Userinfo × Bytes) :=
  match lastIndexOf authority 64 with
  | none =>
    match parseHost authority with
    | none => none
    | some h => some (none, h)
  | some i =>
    match parseHost (authority.drop (i + 1)) with
    | none => none
    | some h =>
      let userinfo := authority.take i
      if ¬ validUserinfo userinfo then none
      else if ¬ bcontains userinfo 58 then
        match unescape userinfo .userPassword with
        | none => none
        | some u => some (some ⟨u, [], false⟩, h)
      else
        let p := splitOnce userinfo 58 true
        match unescape p.1 .userPassword with
        | none => none
        | some username =>
          match unescape p.2 .userPassword with
          | none => none
          | some password => some (some ⟨username, password, true⟩, h)

/-- Go net/url `parse(rawURL, viaRequest := false)`, after the fragment has
been split off. -/
def parseMain (rawURL : Bytes) : Option URL :=
  if containsCTLByte rawURL then none
  else if rawURL = [42] then some { path := [42] }
  else
    match getScheme rawURL with
    | none => none
    | some (sRaw, rest0) =>
      let scheme := asciiToLower sRaw
      -- query split
      let q :=
        if endsWith rest0 [63] ∧ ¬ bcontains rest0.dropLast 63 then
          (rest0.dropLast, true, ([] : Bytes))
        else
          let p := splitOnce rest0 63 true
          (p.1, false, p.2)
      let rest1 := q.1
      let forceQuery := q.2.1
      let rawQuery := q.2.2
      if ¬ startsWith rest1 [47] then
        if scheme ≠ [] then
          some { scheme := scheme, opq := rest1, forceQuery := forceQuery, rawQuery := rawQuery }
        else
          -- colon in first path segment of a scheme-less relative reference
          let seg := (splitOnce rest1 47 true).1
          if bcontains seg 58 then none
          else
            match URL.setPath { scheme := scheme, forceQuery := forceQuery, rawQuery := rawQuery } rest1 with
            | none => none
            | some u => some u
      else
        if (scheme ≠ [] ∨ ¬ startsWith rest1 [47, 47, 47]) ∧ startsWith rest1 [47, 47] then
          let p := splitOnce (rest1.drop 2) 47 false
          match parseAuthority p.1 with
          | none => none
          | some (user, host) =>
            match URL.setPath { scheme := scheme, user := user, host := host,
                                forceQuery := forceQuery, rawQuery := rawQuery } p.2 with
            | none => none
            | some u => some u
        else
          match URL.setPath { scheme := scheme, forceQuery := forceQuery, rawQuery := rawQuery } rest1 with
          | none => none
          | some u => some u

/-- Go net/url `Parse`: split off the fragment, parse the rest, then
unescape the fragment. -/
def urlParse (rawURL : Bytes) : Option URL :=
  let p := splitOnce rawURL 35 true
  match parseMain p.1 with
  | none => none
  | some url =>
    if p.2 = [] then some url
    else
      match unescape p.2 .fragment with
      | none => none
      | some f => some { url with fragment := f }

def trimOneLeadingSlash (s : Bytes) : Bytes :=
  if startsWith s [47] then s.drop 1 else s

def joinSlash : List Bytes → Bytes
  | [] => []
  | [s] => s
  | s :: r :: rest => s ++ 47 :: joinSlash (r :: rest)

/-- Go net/url `resolvePath`: merge the reference path with the base path
and remove dot segments. -/
def resolvePath (base ref : Bytes) : Bytes :=
  let full :=
    if ref = [] then base
    else if ¬ startsWith ref [47] then
      (match lastIndexOf base 47 with
       | some i => base.take (i + 1)
       | none => []) ++ ref
    else ref
  if full = [] then []
  else
    let src := splitAll full 47
    let dst := src.foldl
      (fun d e =>
        if e = [46] then d
        else if e = [46, 46] then d.dropLast
        else d ++ [e]) []
    let dst := if src.getLast? = some [46] ∨ src.getLast? = some [46, 46]
               then dst ++ [[]] else dst
    47 :: trimOneLeadingSlash (joinSlash dst)

/-- Go net/url `(*URL).ResolveReference`. -/
def URL.resolveReference (u ref : URL) : URL :=
  let url := if ref.scheme = [] then { ref with scheme := u.scheme } else ref
  if ref.scheme ≠ [] ∨ ref.host ≠ [] ∨ ref.user ≠ none then
    URL.setPathOrKeep url (resolvePath ref.escapedPath [])
  else if ref.opq ≠ [] then
    { url with user := none, host := [], path := [] }
  else
    let url :=
      if ref.path = [] ∧ ¬ ref.forceQuery ∧ ref.rawQuery = [] then
        let url := { url with rawQuery := u.rawQuery }
        if ref.fragment = [] then { url with fragment := u.fragment } else url
      else url
    URL.setPathOrKeep { url with host := u.host, user := u.user }
      (resolvePath u.escapedPath ref.escapedPath)

/-- Go net/url `(*Userinfo).String`. -/
def Userinfo.toBytes (ui : Userinfo) : Bytes :=
  escape ui.username .userPassword ++
  (if ui.passwordSet then 58 :: escape ui.password .userPassword else [])

/-- Go net/url `(*URL).String`. -/
def URL.toBytes (u : URL) : Bytes :=
  let pre := if u.scheme ≠ [] then u.scheme ++ [58] else []
  let core :=
    if u.opq ≠ [] then pre ++ u.opq
    else
      let auth :=
        if u.scheme ≠ [] ∨ u.host ≠ [] ∨ u.user ≠ none then
          if u.host ≠ [] ∨ u.path ≠ [] ∨ u.user ≠ none then
            [47, 47] ++
            (match u.user with
             | some ui => ui.toBytes ++ [64]
             | none => []) ++
            (if u.host ≠ [] then escape u.host .host else [])
          else []
        else []
      let p := u.escapedPath
      let core := pre ++ auth
      let core := core ++ (if p ≠ [] ∧ ¬ startsWith p [47] ∧ u.host ≠ [] then [47] else [])
      let dotSlash :=
        match firstIndexOf p 58 with
        | some i => (firstIndexOf (p.take i) 47).isNone
        | none => false
      let core := core ++ (if core = [] ∧ dotSlash = true then [46, 47] else [])
      core ++ p
  core ++ (if u.forceQuery ∨ u.rawQuery ≠ [] then 63 :: u.rawQuery else []) ++
  (if u.fragment ≠ [] then 35 :: escape u.fragment .fragment else [])

/-!
## The repository's data model (main.go)

`types.Event`, `types.Entity` and `types.Check` come from the external
sensu-go dependency; we model the fields main.go reads.  `uriPath` is
the value of the external method `types.Event.URIPath()` (the event's
canonical relative path), carried as data since that method lives
outside this repository.
-/

structure Entity where
  name : String
deriving DecidableEq, Repr

structure SCheck where
  name : String
  /-- `types.Check.Status` is a `uint32` in Go; its values are the
  naturals below `2^32`, with no negative values representable. -/
  status : Nat
  output : String
deriving DecidableEq, Repr

structure Event where
  entity : Entity
  check : SCheck
  /-- Result of the external `types.Event.URIPath()`. -/
  uriPath : Bytes
deriving DecidableEq, Repr

/-- The process-scoped configuration (flag/environment globals of main.go).
`dashboard` feeds byte-level URL parsing, so it is carried as bytes. -/
structure Config where
  webhookURL : String
  channel : String
  messagePrefix : String
  iconURL : String
  actionName : String
  dashboard : Bytes
deriving DecidableEq, Repr

/-- `Section` of main.go. -/
structure MSection where
  text : String
deriving DecidableEq, Repr

/-- `Target` of main.go. -/
structure Target where
  os : String
  uri : Bytes
deriving DecidableEq, Repr

/-- `PotentialAction` of main.go. -/
structure PotentialAction where
  type : String
  name : String
  targets : List Target
deriving DecidableEq, Repr

/-- `Message` of main.go. -/
structure Message where
  themeColor : String
  text : String
  channel : String
  sections : List MSection
  potentialAction : List PotentialAction
deriving DecidableEq, Repr

/-- `getColor` of main.go: switch on `event.Check.Status`. -/
def getColor (event : Event) : String :=
  match event.check.status with
  | 0 => "#36A64F"
  | 1 => "#FFCC00"
  | 2 => "#FF0000"
  | _ => "#6600CC"

/-- `getMessageStatus` of main.go: switch on `event.Check.Status`. -/
def getMessageStatus (event : Event) : String :=
  match event.check.status with
  | 0 => "RESOLVED"
  | 1 => "WARNING"
  | 2 => "CRITICAL"
  | _ => "UNKNOWN"

/-- `getLink` of main.go: parse the dashboard URL, parse the event's URI
path, and resolve; either parse error degrades to the empty string. -/
def getLink (dashboard : Bytes) (event : Event) : Bytes :=
  match urlParse dashboard with
  | none => []
  | some dashboardUrl =>
    match urlParse event.uriPath with
    | none => []
    | some eventPath => URL.toBytes (URL.resolveReference dashboardUrl eventPath)

/-- `NewEventMessage` of main.go.  The source appends one section, one
potential action and one target to empty slices, i.e. singleton lists. -/
def NewEventMessage (cfg : Config) (event : Event) : Message :=
  { themeColor := getColor event
    text := getMessageStatus event
    channel := cfg.channel
    sections := [⟨event.check.output⟩]
    potentialAction :=
      [{ type := "OpenUri", name := "View in Sensu",
         targets := [{ os := "default", uri := getLink cfg.dashboard event }] }] }

/-!
## The run pipeline (run / sendMessage / main of main.go)

External collaborators are abstract parameters: `decode` models
`json.Unmarshal` into `types.Event`, `validateEntity`/`validateCheck`
model the sensu-go `Validate` methods (`some msg` = error), and
`doRequest` models `http.Client.Do` on the constructed request.
`http.NewRequest` fails exactly when `url.Parse` rejects the webhook
URL; main.go never checks that error, so a construction failure panics
at `req.Header.Set` with a nil pointer dereference.
-/

structure Deps where
  decode : String → Option Event
  validateEntity : Entity → Option String
  validateCheck : SCheck → Option String
  doRequest : String → Message → Except String Unit

inductive RunOutcome where
  /-- `run` returned nil and the process exits 0. -/
  | success
  /-- `run` returned an error (cobra hands it to `main`, which calls
  `log.Fatal`, exit code 1). -/
  | failure (msg : String)
  /-- a Go panic escaped `sendMessage` (runtime exit code 2). -/
  | panicked (msg : String)
deriving DecidableEq, Repr

/-- What one invocation did: the outcome, whether stdin was read, and
whether `http.Client.Do` (the network call) was invoked. -/
structure RunTrace where
  outcome : RunOutcome
  stdinRead : Bool
  httpCalled : Bool
deriving DecidableEq, Repr

def nilDerefMsg : String :=
  "runtime error: invalid memory address or nil pointer dereference"

/-- `sendMessage` of main.go; returns the outcome and whether
`client.Do` was reached. -/
def sendMessage (deps : Deps) (cfg : Config) (event : Event) : RunOutcome × Bool :=
  let message := NewEventMessage cfg event
  match urlParse (goStr cfg.webhookURL) with
  | none => (.panicked nilDerefMsg, false)
  | some _ =>
    match deps.doRequest cfg.webhookURL message with
    | .error e => (.panicked e, true)
    | .ok _ => (.success, true)

/-- `run` of main.go, as a trace over the external collaborators.
`stdinData` is the result of `ioutil.ReadAll(stdin)`. -/
def run (deps : Deps) (cfg : Config) (args : List String)
    (stdinData : Except String String) : RunTrace :=
  if args ≠ [] then ⟨.failure "invalid argument(s) received", false, false⟩
  else if cfg.webhookURL = "" then ⟨.failure "webhook url is empty", false, false⟩
  else
    match stdinData with
    | .error e => ⟨.failure ("failed to read stdin: " ++ e), true, false⟩
    | .ok eventJSON =>
      match deps.decode eventJSON with
      | none => ⟨.failure ("failed to unmarshal stdin data: " ++ eventJSON), true, false⟩
      | some event =>
        match deps.validateEntity event.entity with
        | some err => ⟨.failure err, true, false⟩
        | none =>
          match deps.validateCheck event.check with
          | some err => ⟨.failure err, true, false⟩
          | none =>
            let r := sendMessage deps cfg event
            ⟨r.1, true, r.2⟩

/-- `main` of main.go: exit code and the message printed on a fatal end
(`log.Fatal` for returned errors, the runtime's report for panics). -/
def mainModel (deps : Deps) (cfg : Config) (args : List String)
    (stdinData : Except String String) : Nat × Option String :=
  match (run deps cfg args stdinData).outcome with
  | .success => (0, none)
  | .failure e => (1, some e)
  | .panicked e => (2, some e)

/-!
## Sample values used by the witness theorems
-/

def sampleEventE1 : Event := ⟨⟨"e1"⟩, ⟨"c", 0, ""⟩, goStr "/events/e1"⟩

def sampleEvent : Event := ⟨⟨"server01"⟩, ⟨"disk", 2, "disk full"⟩, goStr "/events/server01/disk"⟩

def sampleConfig : Config :=
  ⟨"https://hooks.example.com/abc", "#general", "", "http://icon.example.com/i.png",
   "View in Sensu", goStr "https://dash.example.com/"⟩

def percentDashboardConfig : Config := { sampleConfig with dashboard := goStr "%" }

def percentWebhookConfig : Config := { sampleConfig with webhookURL := "%" }

def emptyWebhookConfig : Config := { sampleConfig with webhookURL := "" }

/-- Collaborators that decode every payload to `e` and succeed everywhere. -/
def okDeps (e : Event) : Deps :=
  ⟨fun _ => some e, fun _ => none, fun _ => none, fun _ _ => .ok ()⟩

def noneDecodeDeps : Deps :=
  ⟨fun _ => none, fun _ => none, fun _ => none, fun _ _ => .ok ()⟩

def entityInvalidDeps (e : Event) : Deps :=
  { okDeps e with validateEntity := fun _ => some "entity name must not be empty" }

def checkInvalidDeps (e : Event) : Deps :=
  { okDeps e with validateCheck := fun _ => some "check name must not be empty" }

def refusedDeps (e : Event) : Deps :=
  { okDeps e with doRequest := fun _ _ => .error "connection refused" }

/-!
## Claims
-/

/-- C1: the status-to-color and status-to-label maps are total Lean
functions over every natural status code (`types.Check.Status` is a
`uint32`, so no negative value is representable; every value outside
{0,1,2}, however large, lands in the unknown bucket, and no error can
be raised). -/
theorem getColor_getMessageStatus_total (e : Event) :
    (e.check.status = 0 → getColor e = "#36A64F" ∧ getMessageStatus e = "RESOLVED") ∧
    (e.check.status = 1 → getColor e = "#FFCC00" ∧ getMessageStatus e = "WARNING") ∧
    (e.check.status = 2 → getColor e = "#FF0000" ∧ getMessageStatus e = "CRITICAL") ∧
    (e.check.status ≠ 0 ∧ e.check.status ≠ 1 ∧ e.check.status ≠ 2 →
      getColor e = "#6600CC" ∧ getMessageStatus e = "UNKNOWN") := by
  obtain ⟨ent, ⟨cn, st, out⟩, up⟩ := e
  rcases st with _ | _ | _ | n <;>
    simp [getColor, getMessageStatus]

/-- Witness for C1 at status 0 and status 999. -/
theorem getColor_getMessageStatus_total_witness :
    (getColor ⟨⟨"h"⟩, ⟨"c", 0, "o"⟩, []⟩ = "#36A64F" ∧
     getMessageStatus ⟨⟨"h"⟩, ⟨"c", 0, "o"⟩, []⟩ = "RESOLVED") ∧
    (getColor ⟨⟨"h"⟩, ⟨"c", 999, "o"⟩, []⟩ = "#6600CC" ∧
     getMessageStatus ⟨⟨"h"⟩, ⟨"c", 999, "o"⟩, []⟩ = "UNKNOWN") :=
  ⟨(getColor_getMessageStatus_total ⟨⟨"h"⟩, ⟨"c", 0, "o"⟩, []⟩).1 rfl,
   (getColor_getMessageStatus_total ⟨⟨"h"⟩, ⟨"c", 999, "o"⟩, []⟩).2.2.2 (by decide)⟩

/-- C2: for every event with check status 2 and output "disk full", the
composed message has themeColor "#FF0000", text "CRITICAL" and exactly
one section whose text is the check output. -/
theorem NewEventMessage_critical (cfg : Config) (e : Event)
    (h2 : e.check.status = 2) (hout : e.check.output = "disk full") :
    (NewEventMessage cfg e).themeColor = "#FF0000" ∧
    (NewEventMessage cfg e).text = "CRITICAL" ∧
    (NewEventMessage cfg e).sections = [⟨"disk full"⟩] := by
  obtain ⟨ent, ⟨cn, st, out⟩, up⟩ := e
  simp only at h2 hout
  subst h2; subst hout
  simp [NewEventMessage, getColor, getMessageStatus]

/-- Witness for C2 at a concrete critical event. -/
theorem NewEventMessage_critical_witness :
    (NewEventMessage sampleConfig sampleEvent).themeColor = "#FF0000" ∧
    (NewEventMessage sampleConfig sampleEvent).text = "CRITICAL" ∧
    (NewEventMessage sampleConfig sampleEvent).sections = [⟨"disk full"⟩] :=
  NewEventMessage_critical sampleConfig sampleEvent rfl rfl

/-- C5: the composed message always carries exactly one potential
action, of type "OpenUri" and name "View in Sensu", with exactly one
target whose os is "default" and whose uri is the resolved dashboard
link (the empty string when link resolution fails). -/
theorem NewEventMessage_action (cfg : Config) (e : Event) :
    (NewEventMessage cfg e).potentialAction =
      [{ type := "OpenUri", name := "View in Sensu",
         targets := [{ os := "default", uri := getLink cfg.dashboard e }] }] := rfl

/-- C10: the composed message is identical under any two values of the
message-prefix and action-name configuration variables, and the action
name is always the literal "View in Sensu". -/
theorem NewEventMessage_config_independent (cfg : Config) (p1 p2 a1 a2 : String) (e : Event) :
    NewEventMessage { cfg with messagePrefix := p1, actionName := a1 } e =
      NewEventMessage { cfg with messagePrefix := p2, actionName := a2 } e ∧
    (NewEventMessage cfg e).potentialAction.map PotentialAction.name = ["View in Sensu"] :=
  ⟨rfl, rfl⟩

/-- C3: when both the dashboard base URL and the event path parse, and
the event path is a relative reference (no scheme, no host, no
userinfo, not opaque) with a non-empty path, `getLink` returns the
string of the URL obtained by standard URI-reference resolution: the
base's scheme, host and userinfo are retained and the path is the
RFC 3986 merge (`resolvePath`) of the reference path against the base's
path; concretely, resolving "/events/e1" against
"https://dash.example.com/" yields "https://dash.example.com/events/e1". -/
theorem getLink_resolves (d p : Bytes) (e : Event) (b r : URL)
    (hd : urlParse d = some b) (hp : urlParse p = some r) (he : e.uriPath = p)
    (h1 : r.scheme = []) (h2 : r.host = []) (h3 : r.user = none)
    (h4 : r.opq = []) (h5 : r.path ≠ []) :
    getLink d e =
      URL.toBytes (URL.setPathOrKeep
        { r with scheme := b.scheme, host := b.host, user := b.user }
        (resolvePath b.escapedPath r.escapedPath)) ∧
    getLink (goStr "https://dash.example.com/") sampleEventE1 =
      goStr "https://dash.example.com/events/e1" := by
  constructor
  · simp only [getLink, he, hd, hp]
    obtain ⟨rs, ro, ru, rh, rp, rrp, rfq, rrq, rf⟩ := r
    simp only at h1 h2 h3 h4 h5
    subst h1; subst h2; subst h3; subst h4
    simp [URL.resolveReference, URL.escapedPath, h5]
  · decide

/-- Witness for C3 at the spec's concrete base and event path. -/
theorem getLink_resolves_witness :
    getLink (goStr "https://dash.example.com/") sampleEventE1 =
      goStr "https://dash.example.com/events/e1" :=
  (getLink_resolves (goStr "https://dash.example.com/") (goStr "/events/e1")
    sampleEventE1
    { scheme := goStr "https", host := goStr "dash.example.com", path := goStr "/" }
    { path := goStr "/events/e1" }
    (by decide) (by decide) rfl rfl rfl rfl rfl (by decide)).2

/-- C4 counterexample: `url.Parse` accepts "not a url" (Go's parser is
lenient; spaces are legal in a path), so resolving against the base
"not a url" returns the event path "/events/e1", not the empty
string. -/
theorem getLink_not_a_url_counterexample :
    getLink (goStr "not a url") sampleEventE1 = goStr "/events/e1" ∧
    getLink (goStr "not a url") sampleEventE1 ≠ [] ∧
    getLink (goStr "https://dash.example.com/") ⟨⟨"e1"⟩, ⟨"c", 0, ""⟩, goStr "not a url"⟩ =
      goStr "https://dash.example.com/not%20a%20url" := by
  decide

/-- C4 as amended: when either the dashboard base URL or the event path
actually fails to parse (e.g. "%", a malformed percent escape),
`getLink` degrades to the empty string and message composition still
proceeds, carrying the empty link; but the string "not a url" parses
successfully, so the spec's example inputs do not return "". -/
theorem getLink_soft_failure (cfg : Config) (e : Event) :
    (urlParse cfg.dashboard = none →
      getLink cfg.dashboard e = [] ∧
      NewEventMessage cfg e =
        { themeColor := getColor e, text := getMessageStatus e, channel := cfg.channel,
          sections := [⟨e.check.output⟩],
          potentialAction := [{ type := "OpenUri", name := "View in Sensu",
                                targets := [{ os := "default", uri := [] }] }] }) ∧
    (urlParse e.uriPath = none → getLink cfg.dashboard e = []) ∧
    getLink (goStr "%") sampleEventE1 = [] ∧
    getLink (goStr "https://dash.example.com/") ⟨⟨"e1"⟩, ⟨"c", 0, ""⟩, goStr "%"⟩ = [] := by
  refine ⟨fun h => ?_, fun h => ?_, by decide, by decide⟩
  · constructor
    · simp [getLink, h]
    · simp [NewEventMessage, getLink, h]
  · cases hu : urlParse cfg.dashboard <;> simp [getLink, h, hu]

/-- Witness for C4's amended claim with the unparseable dashboard "%". -/
theorem getLink_soft_failure_witness :
    getLink percentDashboardConfig.dashboard sampleEventE1 = [] ∧
    NewEventMessage percentDashboardConfig sampleEventE1 =
      { themeColor := getColor sampleEventE1, text := getMessageStatus sampleEventE1,
        channel := percentDashboardConfig.channel,
        sections := [⟨sampleEventE1.check.output⟩],
        potentialAction := [{ type := "OpenUri", name := "View in Sensu",
                              targets := [{ os := "default", uri := [] }] }] } :=
  (getLink_soft_failure percentDashboardConfig sampleEventE1).1 (by decide)

/-- C6: for every stdin payload the decoder rejects, `run` returns the
input error "failed to unmarshal stdin data: " followed by the
offending payload, and `http.Client.Do` is never invoked. -/
theorem run_decode_failure (deps : Deps) (cfg : Config) (payload : String)
    (hw : cfg.webhookURL ≠ "") (hdec : deps.decode payload = none) :
    run deps cfg [] (.ok payload) =
      ⟨.failure ("failed to unmarshal stdin data: " ++ payload), true, false⟩ := by
  simp [run, hw, hdec]

/-- Witness for C6 at the truncated payload of the spec. -/
theorem run_decode_failure_witness :
    run noneDecodeDeps sampleConfig [] (.ok "\x7b\"entity\":") =
      ⟨.failure ("failed to unmarshal stdin data: " ++ "\x7b\"entity\":"), true, false⟩ :=
  run_decode_failure noneDecodeDeps sampleConfig "\x7b\"entity\":" (by decide) rfl

/-- C7: with an empty webhook URL, `run` fails with the configuration
error "webhook url is empty" before stdin is read, and no HTTP call is
made, whatever stdin would have carried. -/
theorem run_empty_webhook (deps : Deps) (cfg : Config)
    (stdinData : Except String String) (hw : cfg.webhookURL = "") :
    run deps cfg [] stdinData = ⟨.failure "webhook url is empty", false, false⟩ := by
  simp [run, hw]

/-- Witness for C7: empty webhook URL with a well-formed event on stdin. -/
theorem run_empty_webhook_witness :
    run (okDeps sampleEvent) emptyWebhookConfig [] (.ok "payload") =
      ⟨.failure "webhook url is empty", false, false⟩ :=
  run_empty_webhook (okDeps sampleEvent) emptyWebhookConfig (.ok "payload") rfl

/-- C8: when entity validation (or, entity passing, check validation)
fails, `run` returns the validator's error message unmodified and no
HTTP call is made. -/
theorem run_validation_failure (deps : Deps) (cfg : Config) (payload : String) (event : Event)
    (hw : cfg.webhookURL ≠ "") (hdec : deps.decode payload = some event) :
    (∀ msg, deps.validateEntity event.entity = some msg →
      run deps cfg [] (.ok payload) = ⟨.failure msg, true, false⟩) ∧
    (∀ msg, deps.validateEntity event.entity = none →
      deps.validateCheck event.check = some msg →
      run deps cfg [] (.ok payload) = ⟨.failure msg, true, false⟩) := by
  constructor <;> intros <;> simp [run, hw, hdec, *]

/-- Witness for C8: an entity validator error and a check validator
error, each propagated verbatim with no HTTP call. -/
theorem run_validation_failure_witness :
    run (entityInvalidDeps sampleEvent) sampleConfig [] (.ok "payload") =
      ⟨.failure "entity name must not be empty", true, false⟩ ∧
    run (checkInvalidDeps sampleEvent) sampleConfig [] (.ok "payload") =
      ⟨.failure "check name must not be empty", true, false⟩ :=
  ⟨(run_validation_failure (entityInvalidDeps sampleEvent) sampleConfig "payload" sampleEvent
      (by decide) rfl).1 "entity name must not be empty" rfl,
   (run_validation_failure (checkInvalidDeps sampleEvent) sampleConfig "payload" sampleEvent
      (by decide) rfl).2 "check name must not be empty" rfl rfl⟩

/-- C9: once a validated event reaches the send, an HTTP failure is
fatal: if the request cannot be constructed (the webhook URL does not
parse; main.go ignores `http.NewRequest`'s error and panics on the nil
request), or if executing the request fails (a `client.Do` error is
passed to `panic`), the process ends with exit code 2 and the panic
message, never reporting success. -/
theorem sendMessage_fatal (deps : Deps) (cfg : Config) (payload : String) (event : Event)
    (hw : cfg.webhookURL ≠ "") (hdec : deps.decode payload = some event)
    (hve : deps.validateEntity event.entity = none)
    (hvc : deps.validateCheck event.check = none) :
    (urlParse (goStr cfg.webhookURL) = none →
      mainModel deps cfg [] (.ok payload) = (2, some nilDerefMsg)) ∧
    (∀ u emsg, urlParse (goStr cfg.webhookURL) = some u →
      deps.doRequest cfg.webhookURL (NewEventMessage cfg event) = .error emsg →
      mainModel deps cfg [] (.ok payload) = (2, some emsg)) := by
  constructor
  · intro h
    simp [mainModel, run, sendMessage, hw, hdec, hve, hvc, h]
  · intro u emsg hu hdo
    simp [mainModel, run, sendMessage, hw, hdec, hve, hvc, hu, hdo]

/-- Witness for C9: an unparseable webhook URL panics with the nil
dereference, and a refused connection panics with the transport error;
both exit non-zero. -/
theorem sendMessage_fatal_witness :
    mainModel (okDeps sampleEvent) percentWebhookConfig [] (.ok "payload") =
      (2, some nilDerefMsg) ∧
    mainModel (refusedDeps sampleEvent) sampleConfig [] (.ok "payload") =
      (2, some "connection refused") :=
  ⟨(sendMessage_fatal (okDeps sampleEvent) percentWebhookConfig "payload" sampleEvent
      (by decide) rfl rfl rfl).1 (by decide),
   (sendMessage_fatal (refusedDeps sampleEvent) sampleConfig "payload" sampleEvent
      (by decide) rfl rfl rfl).2
     { scheme := goStr "https", host := goStr "hooks.example.com", path := goStr "/abc" }
     "connection refused" (by decide) rfl⟩
